import Mathlib

/-!
# Verification of the py-mcp-server file-watcher core

A shallow embedding of the file-watcher manager (`app/tools/file_watcher.py`)
and its SSE notification hub (`app/tools/file_watcher_sse.py`), with theorems
checking the natural-language specification against the code.

Conventions of the embedding:
* Python `dict`s become insertion-ordered association lists (`List (String × β)`)
  with the helpers `alookup` / `aset` / `aerase` below, matching Python's
  update-in-place / append-at-end / delete semantics.
* OS interactions (`Path.resolve`, `Path.exists`, `datetime.now`) are passed in
  as an explicit environment / explicit timestamps.
* Exceptions become `Except`: each operation returns its result *and* the state
  as mutated up to the point of the raise, mirroring Python semantics where
  mutations performed before a `raise` persist.
* `asyncio.Queue` objects are identified by numeric ids allocated from a
  counter; the map from id to contents models the heap of queue objects.
-/

set_option autoImplicit false

namespace PyMcp

/-! ## Glob matching (`fnmatch.fnmatch`)

Direct matcher for the glob dialect used by Python's `fnmatch` on POSIX
(`os.path.normcase` is the identity there): `*` matches any sequence,
`?` any single character, `[seq]` a character class with optional leading `!`
negation, a `]` first in the class being literal, `a-b` ranges, and an
unterminated `[` matching a literal `[`.  Recursion is by fuel; every step
consumes a pattern or subject character, so fuel `pat.length + s.length + 1`
always suffices. -/

/-- Scan a character-class body for the closing `]`; returns the body (in
order) and the remainder of the pattern, or `none` if unterminated. -/
def bracketSpan (acc : List Char) : List Char → Option (List Char × List Char)
  | [] => none
  | ']' :: rest => some (acc.reverse, rest)
  | c :: rest => bracketSpan (c :: acc) rest

/-- Does character `c` belong to the (already negation-stripped) class body?
`a-b` ranges match inclusively; a `-` first or last is literal. -/
def classMatch (c : Char) : List Char → Bool
  | [] => false
  | a :: '-' :: b :: rest => (a ≤ c && c ≤ b) || classMatch c rest
  | a :: rest => (c = a) || classMatch c rest

/-- Core glob matcher on character lists, fuelled. -/
def globMatch : Nat → List Char → List Char → Bool
  | 0, _, _ => false
  | _ + 1, [], s => s.isEmpty
  | fuel + 1, '*' :: ps, s =>
    globMatch fuel ps s ||
      (match s with
       | [] => false
       | _ :: s' => globMatch fuel ('*' :: ps) s')
  | fuel + 1, '?' :: ps, s =>
    (match s with
     | [] => false
     | _ :: s' => globMatch fuel ps s')
  | fuel + 1, '[' :: ps, s =>
    let (neg, body0) :=
      match ps with
      | '!' :: t => (true, t)
      | _ => (false, ps)
    let span :=
      match body0 with
      | ']' :: t => bracketSpan [']'] t
      | _ => bracketSpan [] body0
    (match span, s with
     | some (body, rest), c :: s' =>
       (classMatch c body != neg) && globMatch fuel rest s'
     | some _, [] => false
     | none, c :: s' => (c = '[') && globMatch fuel ps s'
     | none, [] => false)
  | fuel + 1, p :: ps, s =>
    (match s with
     | [] => false
     | c :: s' => (c = p) && globMatch fuel ps s')

/-- `fnmatch.fnmatch(name, pat)` (POSIX, so equal to `fnmatchcase`). -/
def fnmatch (name pat : String) : Bool :=
  globMatch (pat.length + name.length + 1) pat.toList name.toList

/-- Characters after the last `/` of a character list. -/
def baseNameAux : List Char → List Char → List Char
  | acc, [] => acc.reverse
  | _, '/' :: rest => baseNameAux [] rest
  | acc, c :: rest => baseNameAux (c :: acc) rest

/-- `os.path.basename` / `Path(p).name`: the component after the last `/`
(watchdog event paths never carry a trailing slash). -/
def baseName (p : String) : String :=
  String.mk (baseNameAux [] p.toList)

/-! ## Event filter (`AsyncFileEventHandler`, file_watcher.py lines 44-91) -/

/-- The `filters` dict, with the defaults applied by
`AsyncFileEventHandler._setup_filters` (file_watcher.py lines 54-63) and by
`create_file_watcher` (lines 286-299). -/
structure Filters where
  file_patterns : List String := ["*"]
  exclude_patterns : List String := []
  include_directories : Bool := true
  specific_files : List String := []
  recursive : Bool := true
deriving Repr, DecidableEq

/-- A raw filesystem event as seen by `_should_process_event`. -/
structure FSEvent where
  src_path : String
  is_directory : Bool
deriving Repr, DecidableEq

/-- The OS environment: `Path.resolve` and `Path.exists`. -/
structure Env where
  resolve : String → String
  pathExists : String → Bool

/-- `_setup_filters` line 63: the `specific_files` set after resolving each
entry to an absolute path (sets are modelled as lists with `∈`). -/
def resolvedSpecificFiles (env : Env) (fl : Filters) : List String :=
  fl.specific_files.map env.resolve

/-- `AsyncFileEventHandler._should_process_event` (file_watcher.py lines
65-91), translated clause by clause:
directory exclusion, then the specific-files membership test, then the
exclude-pattern loop over both filename and absolute path, then (only when no
specific files are configured) the include-pattern loop with `False` when no
pattern matched. -/
def shouldProcessEvent (env : Env) (fl : Filters) (ev : FSEvent) : Bool :=
  let abs_path := env.resolve ev.src_path
  if ev.is_directory && !fl.include_directories then
    false
  else if !fl.specific_files.isEmpty &&
      !(resolvedSpecificFiles env fl).contains abs_path then
    false
  else
    let filename := baseName ev.src_path
    if fl.exclude_patterns.any (fun pat =>
        fnmatch filename pat || fnmatch abs_path pat) then
      false
    else if fl.specific_files.isEmpty then
      fl.file_patterns.any (fun pat => fnmatch filename pat)
    else
      true

/-- An identity resolver: adequate for paths that are already absolute and
symlink-free. -/
def idEnv : Env := ⟨id, fun _ => true⟩

example : fnmatch "a.txt" "*.txt" = true := by decide
example : fnmatch "a.tmp" "*.txt" = false := by decide
example : fnmatch "a.txt.tmp" "*.tmp" = true := by decide
example : fnmatch "abc" "a?c" = true := by decide
example : fnmatch "abc" "a[b-d]c" = true := by decide
example : fnmatch "aec" "a[!b-d]c" = true := by decide
example : fnmatch "x" "x" = true := by decide
example : baseName "/tmp/a.txt" = "a.txt" := by decide

example :
    shouldProcessEvent idEnv
      { file_patterns := ["*.txt"], exclude_patterns := ["*.tmp"] }
      { src_path := "/d/a.txt", is_directory := false } = true := by decide

example :
    shouldProcessEvent idEnv
      { file_patterns := ["*.txt"], exclude_patterns := ["*.tmp"] }
      { src_path := "/d/a.tmp", is_directory := false } = false := by decide

example :
    shouldProcessEvent idEnv
      { specific_files := ["/tmp/x"], exclude_patterns := ["x"] }
      { src_path := "/tmp/x", is_directory := false } = false := by decide

/-! ## Association lists: Python `dict` semantics -/

/-- `d[k]` lookup / `k in d` (via `isSome`). -/
def alookup {β : Type} (k : String) : List (String × β) → Option β
  | [] => none
  | (k', v) :: rest => if k' = k then some v else alookup k rest

/-- `d[k] = v`: update in place when present, append otherwise. -/
def aset {β : Type} (k : String) (v : β) : List (String × β) → List (String × β)
  | [] => [(k, v)]
  | (k', v') :: rest => if k' = k then (k, v) :: rest else (k', v') :: aset k v rest

/-- `del d[k]`. -/
def aerase {β : Type} (k : String) : List (String × β) → List (String × β)
  | [] => []
  | (k', v) :: rest => if k' = k then aerase k rest else (k', v) :: aerase k rest

theorem alookup_aset_self {β : Type} (k : String) (v : β) (l : List (String × β)) :
    alookup k (aset k v l) = some v := by
  induction l with
  | nil => simp [aset, alookup]
  | cons hd tl ih =>
    obtain ⟨k', v'⟩ := hd
    by_cases h : k' = k <;> simp [aset, alookup, h, ih]

theorem alookup_aset_of_ne {β : Type} {k k' : String} (v : β) (l : List (String × β))
    (h : k' ≠ k) : alookup k' (aset k v l) = alookup k' l := by
  induction l with
  | nil => simp [aset, alookup, Ne.symm h]
  | cons hd tl ih =>
    obtain ⟨k₀, v₀⟩ := hd
    by_cases h₀ : k₀ = k
    · subst h₀
      simp [aset, alookup, Ne.symm h]
    · simp [aset, alookup, h₀, ih]

theorem alookup_aerase_self {β : Type} (k : String) (l : List (String × β)) :
    alookup k (aerase k l) = none := by
  induction l with
  | nil => simp [aerase, alookup]
  | cons hd tl ih =>
    obtain ⟨k', v'⟩ := hd
    by_cases h : k' = k <;> simp [aerase, alookup, h, ih]

theorem alookup_aerase_of_ne {β : Type} {k k' : String} (l : List (String × β))
    (h : k' ≠ k) : alookup k' (aerase k l) = alookup k' l := by
  induction l with
  | nil => simp [aerase, alookup]
  | cons hd tl ih =>
    obtain ⟨k₀, v₀⟩ := hd
    by_cases h₀ : k₀ = k
    · subst h₀
      simp [aerase, alookup, Ne.symm h, ih]
    · simp [aerase, alookup, h₀, ih]

/-! ## Watcher registry (`FileWatcherManager`, file_watcher.py lines 118-280) -/

/-- `watcher_info['status']`: the strings `"created"` / `"running"` /
`"stopped"` of file_watcher.py lines 162, 182 and 198. -/
inductive WStatus where
  | created
  | running
  | stopped
deriving Repr, DecidableEq

/-- The `watcher_info` dict built at file_watcher.py lines 157-164; the keys
`started` / `stopped` / `last_event` are added later by start / stop /
`_handle_file_event`, hence `Option`. Timestamps are abstract clock values. -/
structure WatcherInfo where
  id : String
  path : String
  filters : Filters
  created : Nat
  status : WStatus
  event_count : Nat
  started : Option Nat := none
  stopped : Option Nat := none
  last_event : Option Nat := none
deriving Repr, DecidableEq

/-- The per-watcher `watchdog.observers.Observer` thread handle.
`alive` is `Observer.is_alive()`; `everStarted` records that the thread was
started once: Python threads cannot be restarted, so `Observer.start()` on a
previously stopped observer raises `RuntimeError`. -/
structure ObserverH where
  alive : Bool
  everStarted : Bool
deriving Repr, DecidableEq

/-- The three dicts of `FileWatcherManager.__init__` (lines 121-125).
Registered event callbacks are modelled opaquely (their effect, the SSE
broadcast, is embedded separately as the notification hub). -/
structure ManagerState where
  watchers : List (String × WatcherInfo)
  observers : List (String × ObserverH)
  event_callbacks : List (String × List Unit)
deriving Repr, DecidableEq

/-- Errors raised by registry operations, named as in the spec's taxonomy:
`validation` and `duplicate` and `notFound` are the `ValueError`s of
file_watcher.py lines 136, 142, 177, 192 (distinguished there by message);
`keyError` models a Python `KeyError` on a missing `observers` entry;
`threadRestart` models the `RuntimeError` from restarting a thread. -/
inductive WErr where
  | validation
  | duplicate
  | notFound
  | keyError
  | threadRestart
deriving Repr, DecidableEq

/-- The empty registry (`FileWatcherManager.__init__`). -/
def initialManager : ManagerState := ⟨[], [], []⟩

/-- `FileWatcherManager.create_watcher` (lines 127-171): validate the path,
then (under the lock) reject duplicate ids, then store the watcher info, a
fresh not-yet-started observer, and an empty callback list.  The pair returns
the Python result alongside the state as mutated before any raise. -/
def createWatcher (env : Env) (wid watch_path : String) (fl : Filters) (t : Nat)
    (s : ManagerState) : Except WErr WatcherInfo × ManagerState :=
  if !env.pathExists watch_path then
    (.error .validation, s)
  else if (alookup wid s.watchers).isSome then
    (.error .duplicate, s)
  else
    let info : WatcherInfo :=
      { id := wid, path := env.resolve watch_path, filters := fl,
        created := t, status := .created, event_count := 0 }
    (.ok info,
      { watchers := aset wid info s.watchers,
        observers := aset wid ⟨false, false⟩ s.observers,
        event_callbacks := aset wid [] s.event_callbacks })

/-- `FileWatcherManager.start_watcher` (lines 173-186): `NotFoundError` on an
unknown id; start the observer thread when not alive (marking status
`running` and recording `started`); no-op when already alive. -/
def startWatcher (wid : String) (t : Nat) (s : ManagerState) :
    Except WErr WatcherInfo × ManagerState :=
  match alookup wid s.watchers with
  | none => (.error .notFound, s)
  | some info =>
    match alookup wid s.observers with
    | none => (.error .keyError, s)
    | some obs =>
      if !obs.alive then
        if obs.everStarted then
          (.error .threadRestart, s)
        else
          let info' := { info with status := .running, started := some t }
          (.ok info',
            { s with
              watchers := aset wid info' s.watchers,
              observers := aset wid ⟨true, true⟩ s.observers })
      else
        (.ok info, s)

/-- `FileWatcherManager.stop_watcher` (lines 188-202): `NotFoundError` on an
unknown id; stop the observer when alive (the bounded `join(timeout=5.0)` is
best-effort and non-fatal), marking status `stopped` and recording `stopped`;
no-op when not alive. -/
def stopWatcher (wid : String) (t : Nat) (s : ManagerState) :
    Except WErr WatcherInfo × ManagerState :=
  match alookup wid s.watchers with
  | none => (.error .notFound, s)
  | some info =>
    match alookup wid s.observers with
    | none => (.error .keyError, s)
    | some obs =>
      if obs.alive then
        let info' := { info with status := .stopped, stopped := some t }
        (.ok info',
          { s with
            watchers := aset wid info' s.watchers,
            observers := aset wid ⟨false, obs.everStarted⟩ s.observers })
      else
        (.ok info, s)

/-- `FileWatcherManager.remove_watcher` (lines 204-222): `False` (not an
error) for an absent id; otherwise stop first, then delete the id from all
three dicts.  An exception escaping `stop_watcher` propagates, leaving the
state as already mutated. -/
def removeWatcher (wid : String) (t : Nat) (s : ManagerState) :
    Except WErr Bool × ManagerState :=
  if (alookup wid s.watchers).isNone then
    (.ok false, s)
  else
    match stopWatcher wid t s with
    | (.error e, s') => (.error e, s')
    | (.ok _, s') =>
      (.ok true,
        { watchers := aerase wid s'.watchers,
          observers := aerase wid s'.observers,
          event_callbacks := aerase wid s'.event_callbacks })

/-- `FileWatcherManager.list_watchers` (lines 224-227): a snapshot of the
values of the watcher table. -/
def listWatchers (s : ManagerState) : List WatcherInfo :=
  s.watchers.map (·.2)

/-- Registry bookkeeping part of `FileWatcherManager._handle_file_event`
(lines 256-261): when the id is still registered, increment `event_count` and
set `last_event`; an unknown id is ignored.  (The callback fan-out of lines
265-274 is the hub embedding below; per-callback exceptions are caught.) -/
def handleFileEvent (wid : String) (t : Nat) (s : ManagerState) : ManagerState :=
  match alookup wid s.watchers with
  | none => s
  | some info =>
    { s with
      watchers :=
        aset wid
          { info with event_count := info.event_count + 1, last_event := some t }
          s.watchers }

/-- The `for watcher_id in watcher_ids: await self.remove_watcher(watcher_id)`
loop of `cleanup_all` (lines 278-280), over an arbitrary removal procedure:
a Python `for` whose body may raise stops at the first exception, which
propagates to the caller. -/
def cleanupLoop
    (remove : String → ManagerState → Except WErr Bool × ManagerState) :
    List String → ManagerState → Except WErr Unit × ManagerState
  | [], s => (.ok (), s)
  | wid :: rest, s =>
    match remove wid s with
    | (.error e, s') => (.error e, s')
    | (.ok _, s') => cleanupLoop remove rest s'

/-- `FileWatcherManager.cleanup_all` (lines 276-280): iterate
`remove_watcher` over a snapshot of the watcher ids. -/
def cleanupAll (t : Nat) (s : ManagerState) : Except WErr Unit × ManagerState :=
  cleanupLoop (fun wid => removeWatcher wid t) (s.watchers.map (·.1)) s

/-! ## Notification hub (`SSEFileWatcherNotifier`, file_watcher_sse.py) -/

/-- `FileWatcherEvent` (file_watcher.py lines 21-30), paths already resolved. -/
structure FileWatcherEvent where
  event_type : String
  path : String
  is_directory : Bool
  src_path : Option String := none
  timestamp : Nat
deriving Repr, DecidableEq

/-- The JSON messages placed on subscriber queues and emitted by the stream
(file_watcher_sse.py lines 54-59, 82-88, 117, 126). -/
inductive Msg where
  | fileChange (watcher_id : String) (event : FileWatcherEvent) (timestamp : Nat)
  | watcherStatus (watcher_id : String) (status : String)
      (details : List (String × String)) (timestamp : Nat)
  | connected (client_id : String) (timestamp : Nat)
  | heartbeat (timestamp : Nat)
deriving Repr, DecidableEq

/-- `SSEFileWatcherNotifier.__init__` (lines 21-24).  Queue objects are
identified by `Nat` ids allocated from `nextQ`; `queues` models the heap of
`asyncio.Queue` objects (id to contents), while the hub's own references to
queues are exactly the ids listed in `active_connections`. -/
structure NotifierState where
  active_connections : List (String × List Nat)
  client_watchers : List (String × List String)
  queues : List (Nat × List Msg)
  nextQ : Nat
deriving Repr, DecidableEq

/-- Integer-keyed `alookup` for the queue heap. -/
def qlookup (k : Nat) : List (Nat × List Msg) → Option (List Msg)
  | [] => none
  | (k', v) :: rest => if k' = k then some v else qlookup k rest

/-- Integer-keyed `aset` for the queue heap. -/
def qset (k : Nat) (v : List Msg) : List (Nat × List Msg) → List (Nat × List Msg)
  | [] => [(k, v)]
  | (k', v') :: rest => if k' = k then (k, v) :: rest else (k', v') :: qset k v rest

theorem qlookup_qset_self (k : Nat) (v : List Msg) (l : List (Nat × List Msg)) :
    qlookup k (qset k v l) = some v := by
  induction l with
  | nil => simp [qset, qlookup]
  | cons hd tl ih =>
    obtain ⟨k', v'⟩ := hd
    by_cases h : k' = k <;> simp [qset, qlookup, h, ih]

theorem qlookup_qset_of_ne {k k' : Nat} (v : List Msg) (l : List (Nat × List Msg))
    (h : k' ≠ k) : qlookup k' (qset k v l) = qlookup k' l := by
  induction l with
  | nil => simp [qset, qlookup, Ne.symm h]
  | cons hd tl ih =>
    obtain ⟨k₀, v₀⟩ := hd
    by_cases h₀ : k₀ = k
    · subst h₀
      simp [qset, qlookup, Ne.symm h]
    · simp [qset, qlookup, h₀, ih]

/-- `SSEFileWatcherNotifier.add_client` (lines 26-38): a first subscription of
a client id registers its (possibly empty) watcher-filter set; later
subscriptions of the same id skip that branch entirely.  In both cases a fresh
`asyncio.Queue(maxsize=100)` is created and added to the client's connection
set.  `watcher_ids = None` in Python is passed here as `[]` (`watcher_ids or
[]`). -/
def addClient (client_id : String) (watcher_ids : List String)
    (s : NotifierState) : Nat × NotifierState :=
  let s1 :=
    if (alookup client_id s.active_connections).isNone then
      { s with
        active_connections := aset client_id [] s.active_connections,
        client_watchers := aset client_id watcher_ids s.client_watchers }
    else s
  let q := s1.nextQ
  (q,
    { s1 with
      active_connections :=
        aset client_id ((alookup client_id s1.active_connections).getD [] ++ [q])
          s1.active_connections,
      queues := qset q [] s1.queues,
      nextQ := s1.nextQ + 1 })

/-- `SSEFileWatcherNotifier.remove_client` (lines 40-50): discard exactly the
given queue from the client's set; when the set becomes empty, drop the
client's connection entry and its watcher-filter entry.  The queue object
itself (an entry of `queues`) is owned by the stream, not the hub. -/
def removeClient (client_id : String) (q : Nat) (s : NotifierState) :
    NotifierState :=
  match alookup client_id s.active_connections with
  | none => s
  | some qs =>
    let qs' := qs.erase q
    if qs'.isEmpty then
      { s with
        active_connections := aerase client_id s.active_connections,
        client_watchers := aerase client_id s.client_watchers }
    else
      { s with active_connections := aset client_id qs' s.active_connections }

/-- The subscription test of file_watcher_sse.py lines 66 and 92:
`not self.client_watchers.get(client_id) or watcher_id in
self.client_watchers[client_id]` — a missing or empty filter set matches
everything. -/
def clientMatches (cw : List (String × List String)) (client_id watcher_id : String) :
    Bool :=
  match alookup client_id cw with
  | none => true
  | some ws => ws.isEmpty || ws.contains watcher_id

/-- `queue.put_nowait(message)` wrapped in the `except asyncio.QueueFull`
handler of lines 68-71 / 94-97: append when below the capacity of 100, drop
the message (warning logged) when full.  No other exception can arise, so the
`dead_queues` path of lines 72-78 is never taken. -/
def tryPutNowait (q : Nat) (m : Msg) (queues : List (Nat × List Msg)) :
    List (Nat × List Msg) :=
  match qlookup q queues with
  | none => queues
  | some ms => if 100 ≤ ms.length then queues else qset q (ms ++ [m]) queues

/-- The inner `for queue in queues` loop of lines 67-74 / 93-99. -/
def putAll (m : Msg) : List Nat → List (Nat × List Msg) → List (Nat × List Msg)
  | [], queues => queues
  | q :: qs, queues => putAll m qs (tryPutNowait q m queues)

/-- The fan-out loop shared by `broadcast_event` (lines 63-74) and
`send_status_update` (lines 90-99): for every connection entry whose client
subscribes to the watcher, try a non-blocking enqueue on each of its queues. -/
def fanout (cw : List (String × List String)) (watcher_id : String) (m : Msg) :
    List (String × List Nat) → List (Nat × List Msg) → List (Nat × List Msg)
  | [], queues => queues
  | (c, qs) :: rest, queues =>
    fanout cw watcher_id m rest
      (if clientMatches cw c watcher_id then putAll m qs queues else queues)

/-- `SSEFileWatcherNotifier.broadcast_event` (lines 52-78): build the
`file_change` message and fan it out; only queue contents change. -/
def broadcastEvent (watcher_id : String) (event : FileWatcherEvent) (t : Nat)
    (s : NotifierState) : NotifierState :=
  { s with
    queues :=
      fanout s.client_watchers watcher_id (.fileChange watcher_id event t)
        s.active_connections s.queues }

/-- `SSEFileWatcherNotifier.send_status_update` (lines 80-99): same fan-out
with a `watcher_status` message.  No code in the repository ever calls this
function. -/
def sendStatusUpdate (watcher_id status : String)
    (details : List (String × String)) (t : Nat) (s : NotifierState) :
    NotifierState :=
  { s with
    queues :=
      fanout s.client_watchers watcher_id
        (.watcherStatus watcher_id status details t)
        s.active_connections s.queues }

/-- `await queue.get()` inside the stream loop (line 122): consume the oldest
message of one queue; an empty queue times out into a heartbeat, changing no
hub state. -/
def queueGet (q : Nat) (s : NotifierState) : NotifierState :=
  match qlookup q s.queues with
  | none => s
  | some [] => s
  | some (_ :: ms) => { s with queues := qset q ms s.queues }

/-! ## Combined system: watcher removal seen by subscribers

`FileWatcherManager.remove_watcher` (file_watcher.py lines 204-222) calls only
`stop_watcher` and the three dict deletions; neither it nor `stop_watcher`
invokes `sse_notifier.send_status_update` (which no code in the repository
calls), so the hub state is untouched by a removal. -/

/-- System-level effect of `remove_watcher`: the registry is updated, the
notification hub is not. -/
def removeWatcherSystem (wid : String) (t : Nat) (ms : ManagerState)
    (ns : NotifierState) : Except WErr Bool × ManagerState × NotifierState :=
  let (r, ms') := removeWatcher wid t ms
  (r, ms', ns)

/-! ## Registry transition system

Sequential interleavings of the registry operations, with raw-event delivery
as an explicit step.  `deliver` models the watchdog observer (a library
dependency, not under the repository's own sources): the handler scheduled
for a watcher runs on that watcher's observer thread, which dispatches raw
events only while it is alive; the handler applies the event filter of the
configuration captured at creation and forwards matches to
`_handle_file_event`. -/

inductive MOp where
  | create (wid path : String) (fl : Filters)
  | start (wid : String)
  | stop (wid : String)
  | remove (wid : String)
  | deliver (wid : String) (ev : FSEvent)
  | cleanup

/-- Effect of one operation on the registry; a raised error leaves the state
as mutated up to the raise (the `.2` component). -/
def applyOp (env : Env) (t : Nat) : MOp → ManagerState → ManagerState
  | .create wid path fl, s => (createWatcher env wid path fl t s).2
  | .start wid, s => (startWatcher wid t s).2
  | .stop wid, s => (stopWatcher wid t s).2
  | .remove wid, s => (removeWatcher wid t s).2
  | .deliver wid ev, s =>
    match alookup wid s.observers, alookup wid s.watchers with
    | some obs, some info =>
      if obs.alive && shouldProcessEvent env info.filters ev then
        handleFileEvent wid t s
      else s
    | _, _ => s
  | .cleanup, s => (cleanupAll t s).2

/-- Registry states reachable from the empty manager. -/
inductive ReachableM : ManagerState → Prop where
  | init : ReachableM initialManager
  | step {s : ManagerState} (env : Env) (t : Nat) (op : MOp) :
      ReachableM s → ReachableM (applyOp env t op s)

/-- Invariant: a watcher whose observer thread is alive is in `running`
status. -/
def AliveInv (s : ManagerState) : Prop :=
  ∀ wid info obs, alookup wid s.watchers = some info →
    alookup wid s.observers = some obs → obs.alive = true →
    info.status = .running

theorem aliveInv_aset (s : ManagerState) (wid : String) (info : WatcherInfo)
    (obs : ObserverH) (ec : List (String × List Unit)) (hs : AliveInv s)
    (h : obs.alive = true → info.status = .running) :
    AliveInv ⟨aset wid info s.watchers, aset wid obs s.observers, ec⟩ := by
  intro w i o hw ho ha
  by_cases hww : w = wid
  · subst hww
    rw [alookup_aset_self] at hw ho
    cases hw; cases ho
    exact h ha
  · rw [alookup_aset_of_ne _ _ hww] at hw ho
    exact hs w i o hw ho ha

theorem aliveInv_aerase (s : ManagerState) (wid : String) (hs : AliveInv s) :
    AliveInv
      ⟨aerase wid s.watchers, aerase wid s.observers,
        aerase wid s.event_callbacks⟩ := by
  intro w i o hw ho ha
  by_cases hww : w = wid
  · subst hww
    rw [alookup_aerase_self] at hw
    cases hw
  · rw [alookup_aerase_of_ne _ hww] at hw ho
    exact hs w i o hw ho ha

theorem aliveInv_create (env : Env) (wid path : String) (fl : Filters) (t : Nat)
    (s : ManagerState) (hs : AliveInv s) :
    AliveInv (createWatcher env wid path fl t s).2 := by
  unfold createWatcher
  split
  · exact hs
  · split
    · exact hs
    · exact aliveInv_aset s wid _ _ _ hs (by intro h; simp at h)

theorem aliveInv_start (wid : String) (t : Nat) (s : ManagerState)
    (hs : AliveInv s) : AliveInv (startWatcher wid t s).2 := by
  unfold startWatcher
  split
  · exact hs
  · split
    · exact hs
    · split
      · split
        · exact hs
        · exact aliveInv_aset s wid _ _ _ hs (fun _ => rfl)
      · exact hs

theorem aliveInv_stop (wid : String) (t : Nat) (s : ManagerState)
    (hs : AliveInv s) : AliveInv (stopWatcher wid t s).2 := by
  unfold stopWatcher
  split
  · exact hs
  · split
    · exact hs
    · split
      · exact aliveInv_aset s wid _ _ _ hs (by intro h; simp at h)
      · exact hs

theorem aliveInv_remove (wid : String) (t : Nat) (s : ManagerState)
    (hs : AliveInv s) : AliveInv (removeWatcher wid t s).2 := by
  unfold removeWatcher
  split
  · exact hs
  · have hstop : AliveInv (stopWatcher wid t s).2 := aliveInv_stop wid t s hs
    rcases hsw : stopWatcher wid t s with ⟨r, s'⟩
    rw [hsw] at hstop
    cases r with
    | error e => simp only [hsw]; exact hstop
    | ok v => simp only [hsw]; exact aliveInv_aerase s' wid hstop

theorem aliveInv_handle (wid : String) (t : Nat) (s : ManagerState)
    (hs : AliveInv s) : AliveInv (handleFileEvent wid t s) := by
  unfold handleFileEvent
  rcases hw0 : alookup wid s.watchers with _ | info
  · exact hs
  · intro w i o hw ho ha
    by_cases hww : w = wid
    · subst hww
      simp only at hw
      rw [alookup_aset_self] at hw
      cases hw
      exact hs w info o hw0 ho ha
    · simp only at hw
      rw [alookup_aset_of_ne _ _ hww] at hw
      exact hs w i o hw ho ha

theorem aliveInv_cleanupLoop (t : Nat) (ids : List String) (s : ManagerState)
    (hs : AliveInv s) :
    AliveInv (cleanupLoop (fun w => removeWatcher w t) ids s).2 := by
  induction ids generalizing s with
  | nil => exact hs
  | cons wid rest ih =>
    have hrem : AliveInv (removeWatcher wid t s).2 := aliveInv_remove wid t s hs
    rcases hr : removeWatcher wid t s with ⟨r, s'⟩
    rw [hr] at hrem
    cases r with
    | error e => simp only [cleanupLoop, hr]; exact hrem
    | ok v => simp only [cleanupLoop, hr]; exact ih s' hrem

theorem aliveInv_applyOp (env : Env) (t : Nat) (op : MOp) (s : ManagerState)
    (hs : AliveInv s) : AliveInv (applyOp env t op s) := by
  cases op with
  | create wid path fl => exact aliveInv_create env wid path fl t s hs
  | start wid => exact aliveInv_start wid t s hs
  | stop wid => exact aliveInv_stop wid t s hs
  | remove wid => exact aliveInv_remove wid t s hs
  | deliver wid ev =>
    simp only [applyOp]
    rcases ho : alookup wid s.observers with _ | obs
    · simp only [ho]; exact hs
    · rcases hw : alookup wid s.watchers with _ | info
      · simp only [ho, hw]; exact hs
      · simp only [ho, hw]
        split
        · exact aliveInv_handle wid t s hs
        · exact hs
  | cleanup => exact aliveInv_cleanupLoop t _ s hs

theorem reachable_aliveInv {s : ManagerState} (h : ReachableM s) : AliveInv s := by
  induction h with
  | init => intro w i o hw _ _; simp [initialManager, alookup] at hw
  | step env t op _ ih => exact aliveInv_applyOp env t op _ ih

/-! ### What each operation does to one watcher's registry entry -/

theorem create_lookup (env : Env) (wid₀ path : String) (fl : Filters) (t : Nat)
    (s : ManagerState) (wid : String) (info : WatcherInfo)
    (hw : alookup wid s.watchers = some info) :
    alookup wid ((createWatcher env wid₀ path fl t s).2).watchers = some info := by
  unfold createWatcher
  split
  · exact hw
  · split
    · exact hw
    · rename_i hfresh
      by_cases hww : wid = wid₀
      · subst hww
        rw [hw] at hfresh
        simp at hfresh
      · simp only
        rw [alookup_aset_of_ne _ _ hww]
        exact hw

theorem start_count (wid₀ : String) (t : Nat) (s : ManagerState) (wid : String)
    (info info' : WatcherInfo) (hw : alookup wid s.watchers = some info)
    (hw' : alookup wid ((startWatcher wid₀ t s).2).watchers = some info') :
    info'.event_count = info.event_count := by
  unfold startWatcher at hw'
  rcases h₀ : alookup wid₀ s.watchers with _ | info₀ <;> rw [h₀] at hw'
  · rw [hw] at hw'; cases hw'; rfl
  · rcases h₁ : alookup wid₀ s.observers with _ | obs <;> rw [h₁] at hw'
    · rw [hw] at hw'; cases hw'; rfl
    · obtain ⟨alive, es⟩ := obs
      cases alive <;> cases es <;> simp at hw'
      · by_cases hww : wid = wid₀
        · subst hww
          rw [alookup_aset_self] at hw'
          rw [hw] at h₀
          cases h₀; cases hw'; rfl
        · rw [alookup_aset_of_ne _ _ hww] at hw'
          rw [hw] at hw'; cases hw'; rfl
      · rw [hw] at hw'; cases hw'; rfl
      · rw [hw] at hw'; cases hw'; rfl
      · rw [hw] at hw'; cases hw'; rfl

theorem stop_count (wid₀ : String) (t : Nat) (s : ManagerState) (wid : String)
    (info info' : WatcherInfo) (hw : alookup wid s.watchers = some info)
    (hw' : alookup wid ((stopWatcher wid₀ t s).2).watchers = some info') :
    info'.event_count = info.event_count := by
  unfold stopWatcher at hw'
  rcases h₀ : alookup wid₀ s.watchers with _ | info₀ <;> rw [h₀] at hw'
  · rw [hw] at hw'; cases hw'; rfl
  · rcases h₁ : alookup wid₀ s.observers with _ | obs <;> rw [h₁] at hw'
    · rw [hw] at hw'; cases hw'; rfl
    · obtain ⟨alive, es⟩ := obs
      cases alive <;> simp at hw'
      · rw [hw] at hw'; cases hw'; rfl
      · by_cases hww : wid = wid₀
        · subst hww
          rw [alookup_aset_self] at hw'
          rw [hw] at h₀
          cases h₀; cases hw'; rfl
        · rw [alookup_aset_of_ne _ _ hww] at hw'
          rw [hw] at hw'; cases hw'; rfl

theorem stop_lookup_ne (wid₀ : String) (t : Nat) (s : ManagerState)
    (wid : String) (hww : wid ≠ wid₀) :
    alookup wid ((stopWatcher wid₀ t s).2).watchers = alookup wid s.watchers := by
  unfold stopWatcher
  rcases h₀ : alookup wid₀ s.watchers with _ | info₀
  · rfl
  · rcases h₁ : alookup wid₀ s.observers with _ | obs
    · rfl
    · obtain ⟨alive, es⟩ := obs
      cases alive <;> simp
      exact alookup_aset_of_ne _ _ hww

theorem remove_lookup_opt (wid₀ : String) (t : Nat) (s : ManagerState)
    (wid : String) :
    alookup wid ((removeWatcher wid₀ t s).2).watchers = none ∨
      alookup wid ((removeWatcher wid₀ t s).2).watchers = alookup wid s.watchers := by
  unfold removeWatcher
  split
  · exact Or.inr rfl
  · rcases hsw : stopWatcher wid₀ t s with ⟨r, s'⟩
    cases r with
    | error e =>
      right
      have : alookup wid s'.watchers = alookup wid ((stopWatcher wid₀ t s).2).watchers := by
        rw [hsw]
      rw [this]
      -- the error branches of stop_watcher leave the state untouched
      unfold stopWatcher
      rcases h₀ : alookup wid₀ s.watchers with _ | info₀
      · rfl
      · rcases h₁ : alookup wid₀ s.observers with _ | obs
        · rfl
        · by_cases h₂ : obs.alive
          · -- contradiction: the alive branch returns `.ok`
            exfalso
            unfold stopWatcher at hsw
            rw [h₀, h₁] at hsw
            simp only [h₂] at hsw
            cases hsw
          · simp only [Bool.not_eq_true] at h₂
            simp only [h₂]
            rfl
    | ok b =>
      by_cases hww : wid = wid₀
      · subst hww
        left
        simp only
        exact alookup_aerase_self _ _
      · right
        simp only
        rw [alookup_aerase_of_ne _ hww]
        have : s' = (stopWatcher wid₀ t s).2 := by rw [hsw]
        rw [this, stop_lookup_ne wid₀ t s wid hww]

theorem cleanupLoop_lookup_opt (t : Nat) (ids : List String) (s : ManagerState)
    (wid : String) :
    alookup wid ((cleanupLoop (fun w => removeWatcher w t) ids s).2).watchers = none ∨
      alookup wid ((cleanupLoop (fun w => removeWatcher w t) ids s).2).watchers =
        alookup wid s.watchers := by
  induction ids generalizing s with
  | nil => exact Or.inr rfl
  | cons wid₀ rest ih =>
    have hrem := remove_lookup_opt wid₀ t s wid
    rcases hr : removeWatcher wid₀ t s with ⟨r, s'⟩
    rw [hr] at hrem
    cases r with
    | error e =>
      simp only [cleanupLoop, hr]
      exact hrem
    | ok b =>
      simp only [cleanupLoop, hr]
      rcases ih s' with h | h
      · exact Or.inl h
      · rcases hrem with h' | h'
        · exact Or.inl (h.trans h')
        · exact Or.inr (h.trans h')

/-- Closing a `count unchanged` case of the monotonicity claim. -/
theorem count_goal_of_eq {info info' : WatcherInfo}
    (h : info'.event_count = info.event_count) :
    info.event_count ≤ info'.event_count ∧
      (info.event_count < info'.event_count → info.status = .running) := by
  rw [h]
  exact ⟨le_refl _, fun hlt => absurd hlt (lt_irrefl _)⟩

/-- **C5.** Along any registry step from a reachable state, a watcher's
`event_count` never decreases, and it strictly increases only when the
watcher's status was `running` when the step was taken. -/
theorem eventCount_monotone_only_running
    (env : Env) (t : Nat) (op : MOp) (s : ManagerState)
    (hreach : ReachableM s) (wid : String) (info info' : WatcherInfo)
    (hw : alookup wid s.watchers = some info)
    (hw' : alookup wid (applyOp env t op s).watchers = some info') :
    info.event_count ≤ info'.event_count ∧
      (info.event_count < info'.event_count → info.status = .running) := by
  cases op with
  | create wid₀ path fl =>
    simp only [applyOp] at hw'
    rw [create_lookup env wid₀ path fl t s wid info hw] at hw'
    cases hw'
    exact count_goal_of_eq rfl
  | start wid₀ =>
    simp only [applyOp] at hw'
    exact count_goal_of_eq (start_count wid₀ t s wid info info' hw hw')
  | stop wid₀ =>
    simp only [applyOp] at hw'
    exact count_goal_of_eq (stop_count wid₀ t s wid info info' hw hw')
  | remove wid₀ =>
    simp only [applyOp] at hw'
    rcases remove_lookup_opt wid₀ t s wid with h | h
    · rw [h] at hw'; cases hw'
    · rw [h, hw] at hw'; cases hw'
      exact count_goal_of_eq rfl
  | deliver wid₀ ev =>
    simp only [applyOp] at hw'
    rcases ho : alookup wid₀ s.observers with _ | obs
    · simp only [ho] at hw'
      rw [hw] at hw'; cases hw'
      exact count_goal_of_eq rfl
    · rcases hw₀ : alookup wid₀ s.watchers with _ | info₀
      · simp only [ho, hw₀] at hw'
        rw [hw] at hw'; cases hw'
        exact count_goal_of_eq rfl
      · simp only [ho, hw₀] at hw'
        by_cases hcond : (obs.alive && shouldProcessEvent env info₀.filters ev) = true
        · rw [if_pos hcond] at hw'
          unfold handleFileEvent at hw'
          simp only [hw₀] at hw'
          by_cases hww : wid = wid₀
          · subst hww
            rw [hw] at hw₀
            cases hw₀
            rw [alookup_aset_self] at hw'
            cases hw'
            refine ⟨Nat.le_succ _, fun _ => ?_⟩
            have halive : obs.alive = true := by
              have hc := hcond
              simp only [Bool.and_eq_true] at hc
              exact hc.1
            exact reachable_aliveInv hreach wid info obs hw ho halive
          · rw [alookup_aset_of_ne _ _ hww, hw] at hw'
            cases hw'
            exact count_goal_of_eq rfl
        · rw [if_neg hcond] at hw'
          rw [hw] at hw'; cases hw'
          exact count_goal_of_eq rfl
  | cleanup =>
    simp only [applyOp] at hw'
    unfold cleanupAll at hw'
    rcases cleanupLoop_lookup_opt t (s.watchers.map (·.1)) s wid with h | h
    · rw [h] at hw'; cases hw'
    · rw [h, hw] at hw'; cases hw'
      exact count_goal_of_eq rfl

/-- Demonstration run: create watcher `"w"` on `"/tmp"`, then start it. -/
def demoS1 : ManagerState :=
  applyOp idEnv 0 (.create "w" "/tmp" {}) initialManager

def demoS2 : ManagerState := applyOp idEnv 1 (.start "w") demoS1

def demoInfo : WatcherInfo :=
  { id := "w", path := "/tmp", filters := {}, created := 0,
    status := .running, event_count := 0, started := some 1 }

def demoInfo' : WatcherInfo :=
  { demoInfo with event_count := 1, last_event := some 2 }

theorem eventCount_monotone_only_running_witness :
    alookup "w" demoS2.watchers = some demoInfo ∧
    alookup "w"
        (applyOp idEnv 2 (.deliver "w" ⟨"/tmp/a.txt", false⟩) demoS2).watchers =
      some demoInfo' ∧
    (demoInfo.event_count ≤ demoInfo'.event_count ∧
      (demoInfo.event_count < demoInfo'.event_count →
        demoInfo.status = .running)) :=
  ⟨by decide, by decide,
    eventCount_monotone_only_running idEnv 2 (.deliver "w" ⟨"/tmp/a.txt", false⟩)
      demoS2
      (ReachableM.step idEnv 1 (.start "w")
        (ReachableM.step idEnv 0 (.create "w" "/tmp" {}) ReachableM.init))
      "w" demoInfo demoInfo' (by decide) (by decide)⟩

/-! ### Cleanup removes everything (C3) -/

/-- Every registered watcher has an observer entry; holds in every reachable
state (the three dicts are updated together) and is what makes `stop_watcher`'s
`self.observers[watcher_id]` access safe. -/
def ObsAligned (s : ManagerState) : Prop :=
  ∀ wid, (alookup wid s.watchers).isSome → (alookup wid s.observers).isSome

theorem stop_obs_lookup_ne (wid₀ : String) (t : Nat) (s : ManagerState)
    (wid : String) (hww : wid ≠ wid₀) :
    alookup wid ((stopWatcher wid₀ t s).2).observers = alookup wid s.observers := by
  unfold stopWatcher
  rcases h₀ : alookup wid₀ s.watchers with _ | info₀
  · rfl
  · rcases h₁ : alookup wid₀ s.observers with _ | obs
    · rfl
    · obtain ⟨alive, es⟩ := obs
      cases alive <;> simp
      exact alookup_aset_of_ne _ _ hww

/-- Under alignment, `remove_watcher` succeeds, deletes its own id, and leaves
every other id's entries (in both dicts) untouched. -/
theorem remove_success (wid : String) (t : Nat) (s : ManagerState)
    (hal : ObsAligned s) :
    ∃ b s', removeWatcher wid t s = (.ok b, s') ∧
      alookup wid s'.watchers = none ∧
      (∀ w, w ≠ wid → alookup w s'.watchers = alookup w s.watchers) ∧
      (∀ w, w ≠ wid → alookup w s'.observers = alookup w s.observers) := by
  rcases h₀ : alookup wid s.watchers with _ | info₀
  · refine ⟨false, s, ?_, h₀, fun w _ => rfl, fun w _ => rfl⟩
    unfold removeWatcher
    rw [h₀]
    rfl
  · have hobs : (alookup wid s.observers).isSome := hal wid (by rw [h₀]; rfl)
    rcases h₁ : alookup wid s.observers with _ | obs
    · rw [h₁] at hobs
      simp at hobs
    · have hok : ∃ i s₂, stopWatcher wid t s = (.ok i, s₂) := by
        unfold stopWatcher
        rw [h₀, h₁]
        obtain ⟨alive, es⟩ := obs
        cases alive <;> simp
      obtain ⟨i, s₂, hsw⟩ := hok
      have hs₂ : s₂ = (stopWatcher wid t s).2 := by rw [hsw]
      refine ⟨true,
        ⟨aerase wid s₂.watchers, aerase wid s₂.observers,
          aerase wid s₂.event_callbacks⟩, ?_, ?_, ?_, ?_⟩
      · unfold removeWatcher
        rw [h₀, hsw]
        rfl
      · exact alookup_aerase_self _ _
      · intro w hwne
        rw [alookup_aerase_of_ne _ hwne, hs₂, stop_lookup_ne wid t s w hwne]
      · intro w hwne
        rw [alookup_aerase_of_ne _ hwne, hs₂, stop_obs_lookup_ne wid t s w hwne]

theorem alookup_mem_keys {β : Type} (k : String) (v : β) (l : List (String × β))
    (h : alookup k l = some v) : k ∈ l.map (·.1) := by
  induction l with
  | nil => simp [alookup] at h
  | cons hd tl ih =>
    obtain ⟨k', v'⟩ := hd
    by_cases hk : k' = k
    · subst hk; simp
    · simp only [alookup, hk, if_false] at h
      simpa using Or.inr (ih h)

theorem cleanupLoop_removes (t : Nat) (ids : List String) (s : ManagerState)
    (hal : ObsAligned s)
    (hcov : ∀ wid, (alookup wid s.watchers).isSome → wid ∈ ids) :
    (cleanupLoop (fun w => removeWatcher w t) ids s).1 = .ok () ∧
      ((cleanupLoop (fun w => removeWatcher w t) ids s).2).watchers = [] := by
  induction ids generalizing s with
  | nil =>
    rcases hsw : s.watchers with _ | ⟨⟨k, v⟩, tl⟩
    · exact ⟨rfl, hsw⟩
    · exfalso
      have hk : (alookup k s.watchers).isSome := by
        rw [hsw]
        simp [alookup]
      exact absurd (hcov k hk) (List.not_mem_nil k)
  | cons wid₀ rest ih =>
    obtain ⟨b, s', hrw, hnone, hothers, hobs⟩ := remove_success wid₀ t s hal
    simp only [cleanupLoop, hrw]
    apply ih
    · intro w hsome
      by_cases hwne : w = wid₀
      · subst hwne; rw [hnone] at hsome; cases hsome
      · rw [hothers w hwne] at hsome
        rw [hobs w hwne]
        exact hal w hsome
    · intro w hsome
      by_cases hwne : w = wid₀
      · subst hwne; rw [hnone] at hsome; cases hsome
      · rw [hothers w hwne] at hsome
        have := hcov w hsome
        simp only [List.mem_cons] at this
        exact this.resolve_left hwne

/-! ### Fan-out characterization (C6, C7) -/

theorem alookup_mem {β : Type} (k : String) (v : β) (l : List (String × β))
    (h : alookup k l = some v) : (k, v) ∈ l := by
  induction l with
  | nil => simp [alookup] at h
  | cons hd tl ih =>
    obtain ⟨k', v'⟩ := hd
    by_cases hk : k' = k
    · subst hk
      simp only [alookup, if_pos rfl] at h
      cases h
      exact List.mem_cons_self _ _
    · simp only [alookup, hk, if_false] at h
      exact List.mem_cons_of_mem _ (ih h)

theorem tryPut_lookup_ne (q q' : Nat) (m : Msg) (queues : List (Nat × List Msg))
    (h : q' ≠ q) : qlookup q' (tryPutNowait q m queues) = qlookup q' queues := by
  unfold tryPutNowait
  rcases h0 : qlookup q queues with _ | ms
  · rfl
  · simp only
    split
    · rfl
    · exact qlookup_qset_of_ne _ _ h

theorem tryPut_full (q : Nat) (m : Msg) (queues : List (Nat × List Msg))
    (ms : List Msg) (h0 : qlookup q queues = some ms) (hfull : 100 ≤ ms.length) :
    tryPutNowait q m queues = queues := by
  unfold tryPutNowait
  rw [h0]
  simp [hfull]

theorem tryPut_spare (q : Nat) (m : Msg) (queues : List (Nat × List Msg))
    (ms : List Msg) (h0 : qlookup q queues = some ms) (hlt : ms.length < 100) :
    tryPutNowait q m queues = qset q (ms ++ [m]) queues := by
  unfold tryPutNowait
  rw [h0]
  simp [Nat.not_le.mpr hlt]

theorem putAll_not_mem (m : Msg) (qs : List Nat) (queues : List (Nat × List Msg))
    (q : Nat) (h : q ∉ qs) :
    qlookup q (putAll m qs queues) = qlookup q queues := by
  induction qs generalizing queues with
  | nil => rfl
  | cons a rest ih =>
    simp only [List.mem_cons, not_or] at h
    rw [putAll, ih _ h.2, tryPut_lookup_ne a q m queues h.1]

theorem putAll_full (m : Msg) (qs : List Nat) (queues : List (Nat × List Msg))
    (q : Nat) (ms : List Msg) (h0 : qlookup q queues = some ms)
    (hfull : 100 ≤ ms.length) :
    qlookup q (putAll m qs queues) = some ms := by
  induction qs generalizing queues with
  | nil => exact h0
  | cons a rest ih =>
    rw [putAll]
    by_cases ha : a = q
    · subst ha
      rw [tryPut_full a m queues ms h0 hfull]
      exact ih queues h0
    · apply ih
      rw [tryPut_lookup_ne a q m queues (Ne.symm ha)]
      exact h0

theorem putAll_once (m : Msg) (qs : List Nat) (queues : List (Nat × List Msg))
    (q : Nat) (ms : List Msg) (hcount : qs.count q = 1)
    (h0 : qlookup q queues = some ms) (hlt : ms.length < 100) :
    qlookup q (putAll m qs queues) = some (ms ++ [m]) := by
  induction qs generalizing queues with
  | nil => simp [List.count_nil] at hcount
  | cons a rest ih =>
    rw [putAll]
    by_cases ha : a = q
    · subst ha
      have hrest : rest.count a = 0 := by
        rw [List.count_cons_self] at hcount
        omega
      have hnm : a ∉ rest := by
        intro hmem
        rw [← List.count_pos_iff] at hmem
        omega
      rw [putAll_not_mem m rest _ a hnm, tryPut_spare a m queues ms h0 hlt]
      exact qlookup_qset_self _ _ _
    · have hcount' : rest.count q = 1 := by
        rw [List.count_cons_of_ne (Ne.symm ha)] at hcount
        exact hcount
      apply ih _ hcount'
      rw [tryPut_lookup_ne a q m queues (Ne.symm ha)]
      exact h0

/-- Count of one queue id across the whole subscriber table. -/
def connCount (conns : List (String × List Nat)) (q : Nat) : Nat :=
  ((conns.map (·.2)).flatten).count q

theorem connCount_cons (c : String) (qs : List Nat)
    (rest : List (String × List Nat)) (q : Nat) :
    connCount ((c, qs) :: rest) q = qs.count q + connCount rest q := by
  simp [connCount, List.count_append]

theorem connCount_pos_of_mem (conns : List (String × List Nat)) (c : String)
    (qs : List Nat) (q : Nat) (hin : (c, qs) ∈ conns) (hq : q ∈ qs) :
    0 < connCount conns q := by
  induction conns with
  | nil => cases hin
  | cons hd rest ih =>
    obtain ⟨c', qs'⟩ := hd
    rw [connCount_cons]
    rcases List.mem_cons.mp hin with heq | hmem
    · cases heq
      have := List.count_pos_iff.mpr hq
      omega
    · have := ih hmem
      omega

theorem fanout_not_mem (cw : List (String × List String)) (w : String) (m : Msg)
    (conns : List (String × List Nat)) (queues : List (Nat × List Msg))
    (q : Nat) (h : connCount conns q = 0) :
    qlookup q (fanout cw w m conns queues) = qlookup q queues := by
  induction conns generalizing queues with
  | nil => rfl
  | cons hd rest ih =>
    obtain ⟨c', qs'⟩ := hd
    rw [connCount_cons] at h
    have hq : q ∉ qs' := by
      intro hmem
      have := List.count_pos_iff.mpr hmem
      omega
    rw [fanout, ih _ (by omega)]
    split
    · exact putAll_not_mem m qs' queues q hq
    · rfl

theorem fanout_full (cw : List (String × List String)) (w : String) (m : Msg)
    (conns : List (String × List Nat)) (queues : List (Nat × List Msg))
    (q : Nat) (ms : List Msg) (h0 : qlookup q queues = some ms)
    (hfull : 100 ≤ ms.length) :
    qlookup q (fanout cw w m conns queues) = some ms := by
  induction conns generalizing queues with
  | nil => exact h0
  | cons hd rest ih =>
    obtain ⟨c', qs'⟩ := hd
    rw [fanout]
    apply ih
    split
    · exact putAll_full m qs' queues q ms h0 hfull
    · exact h0

theorem fanout_deliver (cw : List (String × List String)) (w : String) (m : Msg)
    (conns : List (String × List Nat)) (queues : List (Nat × List Msg))
    (q : Nat) (c : String) (qs : List Nat) (ms : List Msg)
    (hin : (c, qs) ∈ conns) (hq : q ∈ qs) (hcount : connCount conns q = 1)
    (h0 : qlookup q queues = some ms) (hlt : ms.length < 100)
    (hmatch : clientMatches cw c w = true) :
    qlookup q (fanout cw w m conns queues) = some (ms ++ [m]) := by
  induction conns generalizing queues with
  | nil => cases hin
  | cons hd rest ih =>
    obtain ⟨c', qs'⟩ := hd
    rw [connCount_cons] at hcount
    rcases List.mem_cons.mp hin with heq | hmem
    · cases heq
      have hrest : connCount rest q = 0 := by
        have := List.count_pos_iff.mpr hq
        omega
      have hone : qs.count q = 1 := by omega
      rw [fanout, hmatch]
      simp only [if_true]
      rw [fanout_not_mem cw w m rest _ q hrest]
      exact putAll_once m qs queues q ms hone h0 hlt
    · have hpos := connCount_pos_of_mem rest c qs q hmem hq
      have hq' : q ∉ qs' := by
        intro hmem'
        have := List.count_pos_iff.mpr hmem'
        omega
      rw [fanout]
      refine ih _ hmem (by omega) ?_
      split
      · rw [putAll_not_mem m qs' queues q hq']
        exact h0
      · exact h0

theorem fanout_skip (cw : List (String × List String)) (w : String) (m : Msg)
    (conns : List (String × List Nat)) (queues : List (Nat × List Msg))
    (q : Nat) (c : String) (qs : List Nat)
    (hin : (c, qs) ∈ conns) (hq : q ∈ qs) (hcount : connCount conns q = 1)
    (hmatch : clientMatches cw c w = false) :
    qlookup q (fanout cw w m conns queues) = qlookup q queues := by
  induction conns generalizing queues with
  | nil => cases hin
  | cons hd rest ih =>
    obtain ⟨c', qs'⟩ := hd
    rw [connCount_cons] at hcount
    rcases List.mem_cons.mp hin with heq | hmem
    · cases heq
      have hrest : connCount rest q = 0 := by
        have := List.count_pos_iff.mpr hq
        omega
      rw [fanout, hmatch]
      simp only [Bool.false_eq_true, if_false]
      exact fanout_not_mem cw w m rest queues q hrest
    · have hpos := connCount_pos_of_mem rest c qs q hmem hq
      have hq' : q ∉ qs' := by
        intro hmem'
        have := List.count_pos_iff.mpr hmem'
        omega
      rw [fanout]
      rw [ih _ hmem (by omega)]
      split
      · exact putAll_not_mem m qs' queues q hq'
      · rfl

/-! ### Stream adapter cleanup (C9) -/

/-- The hub's data structures reference queue `q` iff some connection entry
lists it. -/
def hubReferences (s : NotifierState) (q : Nat) : Prop :=
  ∃ c qs, alookup c s.active_connections = some qs ∧ q ∈ qs

/-- One hub transition performed by some task of the scheduler domain:
another stream opens or closes, an event or status update is broadcast, or a
stream consumes from its queue. -/
inductive HubStep : NotifierState → NotifierState → Prop where
  | add (c : String) (ws : List String) (s : NotifierState) :
      HubStep s (addClient c ws s).2
  | remove (c : String) (q : Nat) (s : NotifierState) :
      HubStep s (removeClient c q s)
  | bcast (w : String) (ev : FileWatcherEvent) (t : Nat) (s : NotifierState) :
      HubStep s (broadcastEvent w ev t s)
  | status (w st : String) (d : List (String × String)) (t : Nat)
      (s : NotifierState) : HubStep s (sendStatusUpdate w st d t s)
  | get (q : Nat) (s : NotifierState) : HubStep s (queueGet q s)

inductive HubEvolves : NotifierState → NotifierState → Prop where
  | refl (s : NotifierState) : HubEvolves s s
  | step {s t u : NotifierState} : HubEvolves s t → HubStep t u → HubEvolves s u

/-- Invariant held while a stream with client id `c` and queue id `q` is
live: registered queue ids lie below the allocation counter, so does `q`, and
`q` is listed (at most once) only under `c`. -/
def StreamInv (s : NotifierState) (q : Nat) (c : String) : Prop :=
  (∀ c' qs, alookup c' s.active_connections = some qs → ∀ x ∈ qs, x < s.nextQ) ∧
  q < s.nextQ ∧
  (∀ c' qs, alookup c' s.active_connections = some qs → q ∈ qs →
    c' = c ∧ qs.count q ≤ 1)

theorem addClient_fst (c : String) (ws : List String) (s : NotifierState) :
    (addClient c ws s).1 = s.nextQ := by
  unfold addClient
  split <;> rfl

theorem addClient_conn (c : String) (ws : List String) (s : NotifierState) :
    (addClient c ws s).2.nextQ = s.nextQ + 1 ∧
    ∀ c', alookup c' (addClient c ws s).2.active_connections =
      if c' = c then
        some ((alookup c s.active_connections).getD [] ++ [s.nextQ])
      else alookup c' s.active_connections := by
  unfold addClient
  split
  · rename_i hnone
    have h0 : alookup c s.active_connections = none :=
      Option.isNone_iff_eq_none.mp hnone
    refine ⟨rfl, fun c' => ?_⟩
    by_cases hc : c' = c
    · subst hc
      rw [if_pos rfl, h0]
      simp only
      rw [alookup_aset_self, alookup_aset_self]
      rfl
    · rw [if_neg hc]
      simp only
      rw [alookup_aset_of_ne _ _ hc, alookup_aset_of_ne _ _ hc]
  · refine ⟨rfl, fun c' => ?_⟩
    by_cases hc : c' = c
    · subst hc
      rw [if_pos rfl]
      simp only
      rw [alookup_aset_self]
    · rw [if_neg hc]
      simp only
      rw [alookup_aset_of_ne _ _ hc]

theorem removeClient_conn (c₀ : String) (q₀ : Nat) (s : NotifierState) :
    (removeClient c₀ q₀ s).nextQ = s.nextQ ∧
    (∀ c', c' ≠ c₀ →
      alookup c' (removeClient c₀ q₀ s).active_connections =
        alookup c' s.active_connections) ∧
    (alookup c₀ (removeClient c₀ q₀ s).active_connections = none ∧
        alookup c₀ s.active_connections = none ∨
      ∃ qs₀, alookup c₀ s.active_connections = some qs₀ ∧
        (alookup c₀ (removeClient c₀ q₀ s).active_connections = none ∨
          alookup c₀ (removeClient c₀ q₀ s).active_connections =
            some (qs₀.erase q₀))) := by
  unfold removeClient
  rcases h0 : alookup c₀ s.active_connections with _ | qs₀
  · exact ⟨rfl, fun c' _ => rfl, Or.inl ⟨h0, rfl⟩⟩
  · simp only
    split
    · refine ⟨rfl, fun c' hne => alookup_aerase_of_ne _ hne,
        Or.inr ⟨qs₀, rfl, Or.inl (alookup_aerase_self _ _)⟩⟩
    · refine ⟨rfl, fun c' hne => alookup_aset_of_ne _ _ hne,
        Or.inr ⟨qs₀, rfl, Or.inr (alookup_aset_self _ _ _)⟩⟩

theorem count_erase_le (q q₀ : Nat) (l : List Nat) :
    (l.erase q₀).count q ≤ l.count q := by
  by_cases h : q = q₀
  · subst h
    rw [List.count_erase_self]
    omega
  · rw [List.count_erase_of_ne h]

theorem streamInv_of_same (s s' : NotifierState) (q : Nat) (c : String)
    (hconn : s'.active_connections = s.active_connections)
    (hnq : s'.nextQ = s.nextQ) (h : StreamInv s q c) : StreamInv s' q c := by
  obtain ⟨h1, h2, h3⟩ := h
  refine ⟨fun c' qs hl x hx => ?_, ?_, fun c' qs hl hq => ?_⟩
  · rw [hnq]
    exact h1 c' qs (hconn ▸ hl) x hx
  · rw [hnq]; exact h2
  · exact h3 c' qs (hconn ▸ hl) hq

theorem streamInv_add (c'' : String) (ws : List String) (s : NotifierState)
    (q : Nat) (c : String) (h : StreamInv s q c) :
    StreamInv (addClient c'' ws s).2 q c := by
  obtain ⟨h1, h2, h3⟩ := h
  obtain ⟨hnq, hconn⟩ := addClient_conn c'' ws s
  refine ⟨fun c' qs hl x hx => ?_, ?_, fun c' qs hl hq => ?_⟩
  · rw [hnq]
    rw [hconn c'] at hl
    by_cases hc : c' = c''
    · rw [if_pos hc] at hl
      cases hl
      rcases List.mem_append.mp hx with hx | hx
      · rcases h0 : alookup c'' s.active_connections with _ | qs₀
        · simp [h0] at hx
        · rw [h0] at hx
          simp only [Option.getD_some] at hx
          have := h1 c'' qs₀ h0 x hx
          omega
      · rcases List.mem_singleton.mp hx with rfl
        omega
    · rw [if_neg hc] at hl
      have := h1 c' qs hl x hx
      omega
  · rw [hnq]; omega
  · rw [hconn c'] at hl
    by_cases hc : c' = c''
    · rw [if_pos hc] at hl
      cases hl
      rcases List.mem_append.mp hq with hq' | hq'
      · rcases h0 : alookup c'' s.active_connections with _ | qs₀
        · simp [h0] at hq'
        · rw [h0] at hq'
          simp only [Option.getD_some] at hq'
          obtain ⟨hc₁, hc₂⟩ := h3 c'' qs₀ h0 hq'
          refine ⟨hc.trans hc₁, ?_⟩
          simp only [Option.getD_some]
          rw [List.count_append]
          have hz : List.count q [s.nextQ] = 0 :=
            List.count_eq_zero.mpr (by
              intro hmem
              rcases List.mem_singleton.mp hmem with rfl
              omega)
          omega
      · rcases List.mem_singleton.mp hq' with rfl
        omega
    · rw [if_neg hc] at hl
      exact h3 c' qs hl hq


theorem streamInv_remove (c₀ : String) (q₀ : Nat) (s : NotifierState)
    (q : Nat) (c : String) (h : StreamInv s q c) :
    StreamInv (removeClient c₀ q₀ s) q c := by
  obtain ⟨h1, h2, h3⟩ := h
  obtain ⟨hnq, hne, hc₀⟩ := removeClient_conn c₀ q₀ s
  refine ⟨fun c' qs hl x hx => ?_, by rw [hnq]; exact h2,
    fun c' qs hl hq => ?_⟩
  · rw [hnq]
    by_cases hc : c' = c₀
    · subst hc
      rcases hc₀ with ⟨hres, _⟩ | ⟨qs₀, hs₀, hres | hres⟩
      · rw [hl] at hres; cases hres
      · rw [hl] at hres; cases hres
      · rw [hres] at hl
        cases hl
        exact h1 c' qs₀ hs₀ x (List.mem_of_mem_erase hx)
    · rw [hne c' hc] at hl
      exact h1 c' qs hl x hx
  · by_cases hc : c' = c₀
    · subst hc
      rcases hc₀ with ⟨hres, _⟩ | ⟨qs₀, hs₀, hres | hres⟩
      · rw [hl] at hres; cases hres
      · rw [hl] at hres; cases hres
      · rw [hres] at hl
        cases hl
        obtain ⟨heq, hcount⟩ := h3 c' qs₀ hs₀ (List.mem_of_mem_erase hq)
        exact ⟨heq, le_trans (count_erase_le q q₀ qs₀) hcount⟩
    · rw [hne c' hc] at hl
      exact h3 c' qs hl hq

theorem queueGet_conn (q₀ : Nat) (s : NotifierState) :
    (queueGet q₀ s).active_connections = s.active_connections ∧
      (queueGet q₀ s).nextQ = s.nextQ := by
  unfold queueGet
  rcases h : qlookup q₀ s.queues with _ | ms
  · exact ⟨rfl, rfl⟩
  · cases ms
    · exact ⟨rfl, rfl⟩
    · exact ⟨rfl, rfl⟩

theorem streamInv_step {s s' : NotifierState} {q : Nat} {c : String}
    (h : StreamInv s q c) (hst : HubStep s s') : StreamInv s' q c := by
  cases hst with
  | add c'' ws s => exact streamInv_add c'' ws s q c h
  | remove c₀ q₀ s => exact streamInv_remove c₀ q₀ s q c h
  | bcast w ev t s => exact streamInv_of_same s _ q c rfl rfl h
  | status w st d t s => exact streamInv_of_same s _ q c rfl rfl h
  | get q₀ s =>
    exact streamInv_of_same s _ q c (queueGet_conn q₀ s).1 (queueGet_conn q₀ s).2 h

theorem streamInv_evolves {s s' : NotifierState} {q : Nat} {c : String}
    (h : StreamInv s q c) (hev : HubEvolves s s') : StreamInv s' q c := by
  induction hev with
  | refl => exact h
  | step _ hst ih => exact streamInv_step ih hst

theorem removeClient_kills (s : NotifierState) (q : Nat) (c : String)
    (hro : ∀ c' qs, alookup c' s.active_connections = some qs → q ∈ qs →
      c' = c ∧ qs.count q ≤ 1) :
    ¬ hubReferences (removeClient c q s) q := by
  rintro ⟨c', qs', hl, hmem⟩
  obtain ⟨-, hne, hc₀⟩ := removeClient_conn c q s
  by_cases hc : c' = c
  · subst hc
    rcases hc₀ with ⟨hres, _⟩ | ⟨qs₀, hs₀, hres | hres⟩
    · rw [hl] at hres; cases hres
    · rw [hl] at hres; cases hres
    · rw [hres] at hl
      cases hl
      have hqs₀ : q ∈ qs₀ := List.mem_of_mem_erase hmem
      obtain ⟨-, hcount⟩ := hro c' qs₀ hs₀ hqs₀
      have herase : (qs₀.erase q).count q = qs₀.count q - 1 :=
        List.count_erase_self q qs₀
      have hpos := List.count_pos_iff.mpr hmem
      omega
  · rw [hne c' hc] at hl
    obtain ⟨heq, -⟩ := hro c' qs' hl hmem
    exact hc heq

theorem streamInv_open (s : NotifierState) (c : String) (ws : List String)
    (hbound : ∀ c' qs, alookup c' s.active_connections = some qs →
      ∀ x ∈ qs, x < s.nextQ) :
    StreamInv (addClient c ws s).2 s.nextQ c := by
  obtain ⟨hnq, hconn⟩ := addClient_conn c ws s
  refine ⟨fun c' qs hl x hx => ?_, by rw [hnq]; omega, fun c' qs hl hq => ?_⟩
  · rw [hnq]
    rw [hconn c'] at hl
    by_cases hc : c' = c
    · rw [if_pos hc] at hl
      cases hl
      rcases List.mem_append.mp hx with hx | hx
      · rcases h0 : alookup c s.active_connections with _ | qs₀
        · simp [h0] at hx
        · rw [h0] at hx
          simp only [Option.getD_some] at hx
          have := hbound c qs₀ h0 x hx
          omega
      · rcases List.mem_singleton.mp hx with rfl
        omega
    · rw [if_neg hc] at hl
      have := hbound c' qs hl x hx
      omega
  · rw [hconn c'] at hl
    by_cases hc : c' = c
    · refine ⟨hc, ?_⟩
      rw [if_pos hc] at hl
      cases hl
      rw [List.count_append]
      have hone : List.count s.nextQ [s.nextQ] = 1 := by
        rw [show [s.nextQ] = s.nextQ :: [] from rfl, List.count_cons_self,
          List.count_nil]
      rcases h0 : alookup c s.active_connections with _ | qs₀
      · simp only [Option.getD_none, List.count_nil]
        omega
      · simp only [Option.getD_some]
        have hz : List.count s.nextQ qs₀ = 0 :=
          List.count_eq_zero.mpr (fun hmem =>
            absurd (hbound c qs₀ h0 _ hmem) (lt_irrefl _))
        omega
    · rw [if_neg hc] at hl
      have := hbound c' qs hl _ hq
      omega

/-- **C9.** Once the stream adapter's unconditional cleanup
(`finally: remove_client`, file_watcher_sse.py line 135) has run, no hub data
structure references the stream's queue — whatever hub activity (other
subscriptions, unsubscriptions, broadcasts, status updates, queue reads)
happened while the stream was live, and for every termination cause, since
the same cleanup sits on every path out of the generator. -/
theorem stream_cleanup_unreferenced
    (s0 : NotifierState) (c : String) (ws : List String) (q : Nat)
    (s1 : NotifierState)
    (hbound : ∀ c' qs, alookup c' s0.active_connections = some qs →
      ∀ x ∈ qs, x < s0.nextQ)
    (hadd : addClient c ws s0 = (q, s1))
    (s2 : NotifierState) (hev : HubEvolves s1 s2) :
    ¬ hubReferences (removeClient c q s2) q := by
  have hq : q = s0.nextQ := by rw [← addClient_fst c ws s0, hadd]
  have hinv1 : StreamInv s1 q c := by
    have h := streamInv_open s0 c ws hbound
    rw [← hq] at h
    rw [hadd] at h
    exact h
  have hinv2 : StreamInv s2 q c := streamInv_evolves hinv1 hev
  exact removeClient_kills s2 q c hinv2.2.2

def c9S0 : NotifierState := ⟨[], [], [], 0⟩

def c9S1 : NotifierState := ⟨[("c", [0])], [("c", [])], [(0, [])], 1⟩

theorem stream_cleanup_unreferenced_witness :
    addClient "c" [] c9S0 = (0, c9S1) ∧
      ¬ hubReferences (removeClient "c" 0 c9S1) 0 :=
  ⟨rfl,
    stream_cleanup_unreferenced c9S0 "c" [] 0 c9S1
      (by intro c' qs h x hx; simp [c9S0, alookup] at h) rfl c9S1
      (HubEvolves.refl c9S1)⟩

/-! ## Claim-level theorems for the event filter (C1, C8) -/

def c1Fl : Filters := { specific_files := ["/tmp/x"], exclude_patterns := ["x"] }

/-- **C1 (counterexample).** `"/tmp/x"` is in `specificFiles` (so the claim
demands a match regardless of `excludePatterns`), yet the filter rejects it
because its filename also matches the exclude pattern `"x"`: the exclude loop
of file_watcher.py lines 78-82 runs even in specific-files mode. -/
theorem specificFiles_bypass_counterexample :
    (resolvedSpecificFiles idEnv c1Fl).contains (idEnv.resolve "/tmp/x") = true ∧
    shouldProcessEvent idEnv c1Fl { src_path := "/tmp/x", is_directory := false } =
      false :=
  ⟨by decide, by decide⟩

/-- **C1 (amended).** With non-empty `specificFiles`, a non-directory event
matches iff its resolved absolute path is a member AND no exclude pattern
matches the filename or the absolute path.  `filePatterns` are indeed ignored
in this mode (the right-hand side does not mention them), but
`excludePatterns` still apply after the membership test. -/
theorem specificFiles_membership_and_excludes
    (env : Env) (fl : Filters) (ev : FSEvent)
    (hsf : fl.specific_files ≠ []) (hdir : ev.is_directory = false) :
    shouldProcessEvent env fl ev =
      ((resolvedSpecificFiles env fl).contains (env.resolve ev.src_path) &&
        !(fl.exclude_patterns.any fun pat =>
          fnmatch (baseName ev.src_path) pat ||
            fnmatch (env.resolve ev.src_path) pat)) := by
  have hne : fl.specific_files.isEmpty = false := by
    rcases h : fl.specific_files with _ | ⟨a, l⟩
    · exact absurd h hsf
    · rfl
  by_cases hc : (resolvedSpecificFiles env fl).contains (env.resolve ev.src_path) = true
  · by_cases hex : (fl.exclude_patterns.any fun pat =>
        fnmatch (baseName ev.src_path) pat ||
          fnmatch (env.resolve ev.src_path) pat) = true
    · simp only [shouldProcessEvent]
      rw [hdir, hne, hc, hex]
      rfl
    · simp only [Bool.not_eq_true] at hex
      simp only [shouldProcessEvent]
      rw [hdir, hne, hc, hex]
      rfl
  · simp only [Bool.not_eq_true] at hc
    simp only [shouldProcessEvent]
    rw [hdir, hne, hc]
    rfl

theorem specificFiles_membership_and_excludes_witness :
    c1Fl.specific_files ≠ [] ∧
    shouldProcessEvent idEnv c1Fl { src_path := "/tmp/y", is_directory := false } =
      ((resolvedSpecificFiles idEnv c1Fl).contains (idEnv.resolve "/tmp/y") &&
        !(c1Fl.exclude_patterns.any fun pat =>
          fnmatch (baseName "/tmp/y") pat || fnmatch (idEnv.resolve "/tmp/y") pat)) :=
  ⟨by decide,
    specificFiles_membership_and_excludes idEnv c1Fl
      { src_path := "/tmp/y", is_directory := false } (by decide) rfl⟩

/-- **C8.** With no specific files configured, a non-directory event matches
iff it is not excluded (by filename or absolute path, checked first) and its
filename matches at least one include pattern; an empty include-match set is
a non-match (no implicit wildcard). -/
theorem filter_exclude_then_include
    (env : Env) (fl : Filters) (ev : FSEvent)
    (hsf : fl.specific_files = []) (hdir : ev.is_directory = false) :
    shouldProcessEvent env fl ev =
      (!(fl.exclude_patterns.any fun pat =>
          fnmatch (baseName ev.src_path) pat ||
            fnmatch (env.resolve ev.src_path) pat) &&
        (fl.file_patterns.any fun pat => fnmatch (baseName ev.src_path) pat)) := by
  by_cases hex : (fl.exclude_patterns.any fun pat =>
      fnmatch (baseName ev.src_path) pat ||
        fnmatch (env.resolve ev.src_path) pat) = true
  · simp only [shouldProcessEvent]
    rw [hdir, hsf, hex]
    rfl
  · simp only [Bool.not_eq_true] at hex
    simp only [shouldProcessEvent]
    rw [hdir, hsf, hex]
    rfl

def c8Fl : Filters := { file_patterns := ["*.txt"], exclude_patterns := ["*.tmp"] }

theorem filter_exclude_then_include_witness :
    c8Fl.specific_files = [] ∧
    (shouldProcessEvent idEnv c8Fl { src_path := "/d/a.txt", is_directory := false } =
      (!(c8Fl.exclude_patterns.any fun pat =>
          fnmatch (baseName "/d/a.txt") pat || fnmatch (idEnv.resolve "/d/a.txt") pat) &&
        (c8Fl.file_patterns.any fun pat => fnmatch (baseName "/d/a.txt") pat))) :=
  ⟨rfl,
    filter_exclude_then_include idEnv c8Fl
      { src_path := "/d/a.txt", is_directory := false } rfl rfl⟩

/-! ## Claim-level theorems for the registry (C3, C4) -/

/-- **C4.** The path exists, the id is already registered: the second create
fails with `DuplicateError` and hands back the registry exactly as it was —
the duplicate check precedes every allocation, so no watcher info, observer,
or callback entry changes. -/
theorem create_duplicate_unchanged
    (env : Env) (wid path : String) (fl : Filters) (t : Nat) (s : ManagerState)
    (hdup : (alookup wid s.watchers).isSome = true)
    (hpath : env.pathExists path = true) :
    createWatcher env wid path fl t s = (.error .duplicate, s) := by
  unfold createWatcher
  rw [hpath, hdup]
  rfl

theorem create_duplicate_unchanged_witness :
    ((alookup "w" demoS1.watchers).isSome = true ∧
      idEnv.pathExists "/tmp" = true) ∧
    createWatcher idEnv "w" "/tmp" {} 5 demoS1 = (.error .duplicate, demoS1) :=
  ⟨⟨by decide, rfl⟩,
    create_duplicate_unchanged idEnv "w" "/tmp" {} 5 demoS1 (by decide) rfl⟩

/-- **C3 (amended).** `cleanup_all` removes every watcher: from any state in
which each registered watcher has its observer entry (true in all reachable
states), the loop completes without error and empties the registry.  The loop
body has no failure handling: nothing is collected, and a failing removal
would abort the loop with that error (see the counterexample). -/
theorem cleanupAll_removes_all (t : Nat) (s : ManagerState)
    (hal : ObsAligned s) :
    (cleanupAll t s).1 = .ok () ∧ ((cleanupAll t s).2).watchers = [] := by
  apply cleanupLoop_removes
  · exact hal
  · intro wid hsome
    rcases h : alookup wid s.watchers with _ | v
    · rw [h] at hsome
      simp at hsome
    · exact alookup_mem_keys wid v s.watchers h

theorem cleanupAll_removes_all_witness :
    ObsAligned demoS2 ∧
    ((cleanupAll 9 demoS2).1 = .ok () ∧ ((cleanupAll 9 demoS2).2).watchers = []) := by
  have hal : ObsAligned demoS2 := by
    intro wid h
    by_cases hw : wid = "w"
    · subst hw
      decide
    · rw [show demoS2.watchers = [("w", demoInfo)] from by decide] at h
      simp [alookup, Ne.symm hw] at h
  exact ⟨hal, cleanupAll_removes_all 9 demoS2 hal⟩

/-- A removal procedure of the loop's type that fails on watcher `"a"` and
behaves like `remove_watcher` otherwise — the hypothetical the claim itself
poses ("even if the removal of one of them fails"). -/
def removeFailingOnA (wid : String) (s : ManagerState) :
    Except WErr Bool × ManagerState :=
  if wid = "a" then (.error .keyError, s) else removeWatcher wid 0 s

def c3InfoB : WatcherInfo :=
  { id := "b", path := "/tmp", filters := {}, created := 0,
    status := .created, event_count := 0 }

def c3State : ManagerState :=
  ⟨[("a", { id := "a", path := "/tmp", filters := {}, created := 0,
            status := .created, event_count := 0 }), ("b", c3InfoB)],
    [("a", ⟨false, false⟩), ("b", ⟨false, false⟩)],
    [("a", []), ("b", [])]⟩

/-- **C3 (counterexample).** Running the `cleanup_all` loop over ids
`["a", "b"]` with a removal that fails on `"a"`: the loop returns that single
error (no collection of failures exists — the loop's result type carries at
most one error) and never attempts `"b"`, whose watcher is still registered —
against "removal is attempted for every watcher id even if the removal of one
of them fails, and all per-watcher failures are collected rather than the
loop aborting at the first failure". -/
theorem cleanup_no_failure_collection_counterexample :
    (cleanupLoop removeFailingOnA ["a", "b"] c3State).1 = .error .keyError ∧
    alookup "b" ((cleanupLoop removeFailingOnA ["a", "b"] c3State).2).watchers =
      some c3InfoB :=
  ⟨rfl, rfl⟩

/-! ## Claim-level theorems for removal as seen by subscribers (C2) -/

theorem remove_ok_lookup (wid : String) (t : Nat) (s : ManagerState) (b : Bool)
    (h : (removeWatcher wid t s).1 = .ok b) :
    alookup wid ((removeWatcher wid t s).2).watchers = none := by
  by_cases h0 : (alookup wid s.watchers).isNone = true
  · unfold removeWatcher
    rw [if_pos h0]
    exact Option.isNone_iff_eq_none.mp h0
  · unfold removeWatcher at h ⊢
    rw [if_neg h0] at h ⊢
    rcases hsw : stopWatcher wid t s with ⟨r, s₂⟩
    rw [hsw] at h
    cases r with
    | error e => cases h
    | ok v => exact alookup_aerase_self _ _

def c2Info : WatcherInfo :=
  { id := "w1", path := "/tmp", filters := {}, created := 0,
    status := .running, event_count := 0, started := some 1 }

def c2MS : ManagerState :=
  ⟨[("w1", c2Info)], [("w1", ⟨true, true⟩)], [("w1", [])]⟩

def c2NS : NotifierState := ⟨[("sub", [0])], [("sub", [])], [(0, [])], 1⟩

/-- **C2 (counterexample).** Removing the running watcher `"w1"` while a
subscriber with an empty watcher filter is connected: the removal succeeds,
`"w1"` is gone from the registry (hence from `list()`), yet the hub state is
bit-for-bit unchanged and the subscriber's queue still holds no message at
all — in particular no `watcher_status` message with status `"stopped"` was
emitted (`send_status_update` is called by no code in the repository). -/
theorem remove_emits_no_status_counterexample :
    (removeWatcherSystem "w1" 2 c2MS c2NS).1 = .ok true ∧
    alookup "w1" (removeWatcherSystem "w1" 2 c2MS c2NS).2.1.watchers = none ∧
    listWatchers (removeWatcherSystem "w1" 2 c2MS c2NS).2.1 = [] ∧
    (removeWatcherSystem "w1" 2 c2MS c2NS).2.2 = c2NS ∧
    qlookup 0 (removeWatcherSystem "w1" 2 c2MS c2NS).2.2.queues = some [] := by
  refine ⟨rfl, rfl, rfl, rfl, rfl⟩

/-- **C2 (amended).** System-wide, `remove_watcher` leaves the notification
hub untouched — no status message is enqueued to any subscriber — and
whenever the call returns normally the watcher id is no longer registered. -/
theorem remove_leaves_hub_untouched
    (wid : String) (t : Nat) (ms : ManagerState) (ns : NotifierState) :
    (removeWatcherSystem wid t ms ns).2.2 = ns ∧
    (∀ b, (removeWatcherSystem wid t ms ns).1 = .ok b →
      alookup wid (removeWatcherSystem wid t ms ns).2.1.watchers = none) := by
  rcases hrm : removeWatcher wid t ms with ⟨r, ms'⟩
  constructor
  · simp [removeWatcherSystem, hrm]
  · intro b hb
    simp only [removeWatcherSystem, hrm] at hb ⊢
    have h1 : (removeWatcher wid t ms).1 = .ok b := by rw [hrm]; exact hb
    have := remove_ok_lookup wid t ms b h1
    rw [hrm] at this
    exact this

theorem remove_leaves_hub_untouched_witness :
    (removeWatcherSystem "w1" 2 c2MS c2NS).2.2 = c2NS ∧
    alookup "w1" (removeWatcherSystem "w1" 2 c2MS c2NS).2.1.watchers = none :=
  ⟨(remove_leaves_hub_untouched "w1" 2 c2MS c2NS).1,
    (remove_leaves_hub_untouched "w1" 2 c2MS c2NS).2 true rfl⟩

/-! ## Claim-level theorems for the hub (C6, C7, C10) -/

/-- **C6.** Broadcasting to a subscriber whose queue already holds its
capacity of 100 messages drops exactly that message for that subscriber: its
queue contents are unchanged, no exception escapes (`broadcast_event` is
total — the `QueueFull` handler reduces to the drop), every registration
(connection sets and filters) is untouched, and the message is still appended
to every other matching subscriber queue with spare capacity (each queue id
is registered exactly once, as fresh allocation guarantees). -/
theorem broadcast_backpressure_drop
    (s : NotifierState) (wid : String) (ev : FileWatcherEvent) (t : Nat)
    (c : String) (qs : List Nat) (q : Nat) (ms : List Msg)
    (hconn : alookup c s.active_connections = some qs) (hq : q ∈ qs)
    (hlook : qlookup q s.queues = some ms) (hfull : ms.length = 100) :
    qlookup q (broadcastEvent wid ev t s).queues = some ms ∧
      (broadcastEvent wid ev t s).active_connections = s.active_connections ∧
      (broadcastEvent wid ev t s).client_watchers = s.client_watchers ∧
      (∀ c' qs' q' ms', alookup c' s.active_connections = some qs' →
        q' ∈ qs' → connCount s.active_connections q' = 1 →
        qlookup q' s.queues = some ms' → ms'.length < 100 →
        clientMatches s.client_watchers c' wid = true →
        qlookup q' (broadcastEvent wid ev t s).queues =
          some (ms' ++ [Msg.fileChange wid ev t])) := by
  refine ⟨?_, rfl, rfl, ?_⟩
  · exact fanout_full s.client_watchers wid (Msg.fileChange wid ev t)
      s.active_connections s.queues q ms hlook (by omega)
  · intro c' qs' q' ms' hconn' hq' hcount' hlook' hlt' hmatch'
    exact fanout_deliver s.client_watchers wid (Msg.fileChange wid ev t)
      s.active_connections s.queues q' c' qs' ms'
      (alookup_mem _ _ _ hconn') hq' hcount' hlook' hlt' hmatch'

def fullQ : List Msg := List.replicate 100 (Msg.heartbeat 0)

def demoEv : FileWatcherEvent :=
  { event_type := "modified", path := "/tmp/a.txt", is_directory := false,
    timestamp := 3 }

def c6NS : NotifierState :=
  ⟨[("a", [0]), ("b", [1])], [("a", []), ("b", [])],
    [(0, fullQ), (1, [])], 2⟩

theorem broadcast_backpressure_drop_witness :
    (alookup "a" c6NS.active_connections = some [0] ∧ (0 : Nat) ∈ [0] ∧
      qlookup 0 c6NS.queues = some fullQ ∧ fullQ.length = 100) ∧
    (qlookup 0 (broadcastEvent "w" demoEv 5 c6NS).queues = some fullQ ∧
      (broadcastEvent "w" demoEv 5 c6NS).active_connections =
        c6NS.active_connections ∧
      (broadcastEvent "w" demoEv 5 c6NS).client_watchers =
        c6NS.client_watchers ∧
      (∀ c' qs' q' ms', alookup c' c6NS.active_connections = some qs' →
        q' ∈ qs' → connCount c6NS.active_connections q' = 1 →
        qlookup q' c6NS.queues = some ms' → ms'.length < 100 →
        clientMatches c6NS.client_watchers c' "w" = true →
        qlookup q' (broadcastEvent "w" demoEv 5 c6NS).queues =
          some (ms' ++ [Msg.fileChange "w" demoEv 5]))) :=
  ⟨⟨rfl, by decide, rfl, by decide⟩,
    broadcast_backpressure_drop c6NS "w" demoEv 5 "a" [0] 0 fullQ rfl
      (by decide) rfl (by decide)⟩

/-- **C7.** A broadcast tagged with watcher id `wid` reaches exactly the
matching subscribers: the queue of a subscriber whose filter neither is empty
nor contains `wid` is untouched, and the queue of a matching subscriber
(empty filter, or filter containing `wid`) receives the message whenever it
has spare capacity — the enqueue is non-blocking, so a full queue drops
instead (C6). -/
theorem broadcast_scoping
    (s : NotifierState) (wid : String) (ev : FileWatcherEvent) (t : Nat)
    (c : String) (qs : List Nat) (q : Nat) (ms : List Msg)
    (hconn : alookup c s.active_connections = some qs) (hq : q ∈ qs)
    (hcount : connCount s.active_connections q = 1)
    (hlook : qlookup q s.queues = some ms) :
    (clientMatches s.client_watchers c wid = false →
      qlookup q (broadcastEvent wid ev t s).queues = some ms) ∧
    (clientMatches s.client_watchers c wid = true → ms.length < 100 →
      qlookup q (broadcastEvent wid ev t s).queues =
        some (ms ++ [Msg.fileChange wid ev t])) := by
  constructor
  · intro hm
    have := fanout_skip s.client_watchers wid (Msg.fileChange wid ev t)
      s.active_connections s.queues q c qs (alookup_mem _ _ _ hconn) hq hcount hm
    exact this.trans hlook
  · intro hm hlt
    exact fanout_deliver s.client_watchers wid (Msg.fileChange wid ev t)
      s.active_connections s.queues q c qs ms (alookup_mem _ _ _ hconn)
      hq hcount hlook hlt hm

def subNS : NotifierState :=
  ⟨[("sub", [0])], [("sub", ["w1"])], [(0, [])], 1⟩

theorem broadcast_scoping_witness :
    (alookup "sub" subNS.active_connections = some [0] ∧ (0 : Nat) ∈ [0] ∧
      connCount subNS.active_connections 0 = 1 ∧
      qlookup 0 subNS.queues = some []) ∧
    ((clientMatches subNS.client_watchers "sub" "w2" = false →
        qlookup 0 (broadcastEvent "w2" demoEv 3 subNS).queues = some []) ∧
      (clientMatches subNS.client_watchers "sub" "w2" = true →
        ([] : List Msg).length < 100 →
        qlookup 0 (broadcastEvent "w2" demoEv 3 subNS).queues =
          some ([] ++ [Msg.fileChange "w2" demoEv 3]))) :=
  ⟨⟨rfl, by decide, by decide, rfl⟩,
    broadcast_scoping subNS "w2" demoEv 3 "sub" [0] 0 [] rfl (by decide)
      (by decide) rfl⟩

theorem addClient_queues (c : String) (ws : List String) (s : NotifierState) :
    (addClient c ws s).2.queues = qset s.nextQ [] s.queues := by
  unfold addClient
  split <;> rfl

/-- **C10.** A second subscription under an already-registered client id adds
a fresh, empty, independent queue for that client — but the watcher-filter
argument of the new call is silently ignored: the filter table is entirely
unchanged, so the client keeps the filter given at its first subscription and
the new queue is scoped by that original filter. -/
theorem addClient_existing_keeps_filter
    (s : NotifierState) (c : String) (ws ws0 : List String) (qs : List Nat)
    (hconn : alookup c s.active_connections = some qs)
    (hfilt : alookup c s.client_watchers = some ws0) :
    (addClient c ws s).2.client_watchers = s.client_watchers ∧
    alookup c (addClient c ws s).2.client_watchers = some ws0 ∧
    alookup c (addClient c ws s).2.active_connections = some (qs ++ [s.nextQ]) ∧
    (addClient c ws s).1 = s.nextQ ∧
    qlookup s.nextQ (addClient c ws s).2.queues = some [] := by
  have hnone : (alookup c s.active_connections).isNone = false := by
    rw [hconn]; rfl
  have hcw : (addClient c ws s).2.client_watchers = s.client_watchers := by
    unfold addClient
    simp [hnone]
  refine ⟨hcw, ?_, ?_, addClient_fst c ws s, ?_⟩
  · rw [hcw]; exact hfilt
  · rw [(addClient_conn c ws s).2 c, if_pos rfl, hconn]
    rfl
  · rw [addClient_queues c ws s]
    exact qlookup_qset_self _ _ _

theorem addClient_existing_keeps_filter_witness :
    (alookup "sub" subNS.active_connections = some [0] ∧
      alookup "sub" subNS.client_watchers = some ["w1"]) ∧
    ((addClient "sub" ["w2"] subNS).2.client_watchers = subNS.client_watchers ∧
      alookup "sub" (addClient "sub" ["w2"] subNS).2.client_watchers =
        some ["w1"] ∧
      alookup "sub" (addClient "sub" ["w2"] subNS).2.active_connections =
        some ([0] ++ [subNS.nextQ]) ∧
      (addClient "sub" ["w2"] subNS).1 = subNS.nextQ ∧
      qlookup subNS.nextQ (addClient "sub" ["w2"] subNS).2.queues = some []) :=
  ⟨⟨rfl, rfl⟩,
    addClient_existing_keeps_filter subNS "sub" ["w2"] ["w1"] [0] rfl rfl⟩

end PyMcp
